import Mathlib

/-!
# Verification of the apiIPCA service against its specification

Shallow embedding of the IPCA monetary-correction service:
numeric values are modelled as rationals, Python dictionaries as
association lists, timestamps as natural-number seconds, and fallible
operations as `Option`/`Except`.
-/

namespace ApiIPCA

/-! ## Basic Python-style string utilities (shared by the service helpers) -/

/-- Decimal digit character for a digit value below ten. -/
def digitChar : Nat → Char
  | 0 => '0' | 1 => '1' | 2 => '2' | 3 => '3' | 4 => '4'
  | 5 => '5' | 6 => '6' | 7 => '7' | 8 => '8' | _ => '9'

/-- Numeric value of a decimal digit character. -/
def charDigit (c : Char) : Nat := c.toNat - 48

/-- Whether a character is a decimal digit `0`-`9`. -/
def isDigitChar (c : Char) : Bool := '0' ≤ c && c ≤ '9'

/-- Value of a most-significant-digit-first digit string. -/
def digitsValN (l : List Char) : Nat :=
  l.foldl (fun a c => 10 * a + charDigit c) 0

/-- `str.isdigit()`: nonempty and all characters digits. -/
def pyIsDigit (l : List Char) : Bool := !l.isEmpty && l.all isDigitChar

/-- `int(s)`: an optional leading minus sign followed by digits. -/
def pyInt (l : List Char) : Option Int :=
  match l with
  | '-' :: rest => if pyIsDigit rest then some (-(digitsValN rest : Int)) else none
  | _ => if pyIsDigit l then some (digitsValN l : Int) else none

/-- `float(s)` on unsigned plain decimal strings: optional integer part,
optional `.` and fractional part, at least one digit in total. -/
def pyFloat (l : List Char) : Option ℚ :=
  match l.span (· ≠ '.') with
  | (ip, []) =>
    if ip.all isDigitChar && !ip.isEmpty then some ((digitsValN ip : ℚ)) else none
  | (ip, _ :: fp) =>
    if ip.all isDigitChar && fp.all isDigitChar && (!ip.isEmpty || !fp.isEmpty) then
      some ((digitsValN ip : ℚ) + (digitsValN fp : ℚ) / (10 : ℚ) ^ fp.length)
    else none

/-- `s.replace(a, b)` for single characters. -/
def replaceChar (a b : Char) (l : List Char) : List Char :=
  l.map (fun c => if c = a then b else c)

/-- `s.zfill(2)` on digit strings. -/
def zfill2 (l : List Char) : List Char :=
  if l.length < 2 then List.replicate (2 - l.length) '0' ++ l else l

/-- Least-significant-first decimal digits, with fuel for structural
recursion (kernel-computable). -/
def natDigitsFuel : Nat → Nat → List Nat
  | 0, _ => []
  | fuel + 1, n => if n = 0 then [] else n % 10 :: natDigitsFuel fuel (n / 10)

/-- Least-significant-first decimal digit characters of a natural number
(`["0"]` for zero). -/
def lsdDigits (n : Nat) : List Char :=
  if n = 0 then ['0'] else (natDigitsFuel n n).map digitChar

/-- Insertion into a sorted list (ascending). -/
def insertSorted {α : Type} [LinearOrder α] (m : α) : List α → List α
  | [] => [m]
  | x :: xs => if m ≤ x then m :: x :: xs else x :: insertSorted m xs

/-- `sorted(...)`: ascending insertion sort (kernel-computable). -/
def pySorted {α : Type} [LinearOrder α] : List α → List α
  | [] => []
  | x :: xs => insertSorted x (pySorted xs)

/-- Insert a `,` thousands separator after every three digits, counting from
the least significant; input and output are least-significant-first. -/
def group3 : List Char → Nat → List Char
  | [], _ => []
  | c :: cs, k => if k = 3 then ',' :: c :: group3 cs 1 else c :: group3 cs (k + 1)

/-- Round half to even to an integer (Python `round`). -/
def roundHalfEvenZ (q : ℚ) : ℤ :=
  let f := ⌊q⌋
  let r := q - (f : ℚ)
  if r < 1 / 2 then f
  else if 1 / 2 < r then f + 1
  else if 2 ∣ f then f else f + 1

/-- Python `round(x, n)` on exact rationals. -/
def pyRound (q : ℚ) (n : Nat) : ℚ :=
  (roundHalfEvenZ (q * (10 : ℚ) ^ n) : ℚ) / (10 : ℚ) ^ n

/-- `f"{q:,.2f}"`: value rounded to two decimals, thousands groups separated
by `,`, decimal point `.`, sign taken from the value. -/
def formatEng (q : ℚ) : List Char :=
  let c := roundHalfEvenZ (q * 100)
  let n := c.natAbs
  let ip := n / 100
  let fr := n % 100
  (if q < 0 then ['-'] else []) ++ (group3 (lsdDigits ip) 0).reverse ++
    '.' :: [digitChar (fr / 10), digitChar (fr % 10)]

/-! ## `IPCAService` static helpers (src/app/services/ipca_service.py) -/

/-- `IPCAService.formatar_valor_brasileiro`: format with `f"{valor:,.2f}"`,
then swap the separators via `replace(",", "X").replace(".", ",").replace("X", ".")`. -/
def formatar_valor_brasileiro (valor : ℚ) : List Char :=
  replaceChar 'X' '.' (replaceChar '.' ',' (replaceChar ',' 'X' (formatEng valor)))

/-- The sign-handling tail of `converter_valor_monetario_string`: strip one
leading minus sign, convert with `float`, restore the sign. `none` models the
`ValueError` that `float` raises on malformed input. -/
def pySigned (l : List Char) : Option ℚ :=
  match l with
  | '-' :: rest => (pyFloat rest).map (fun v => -v)
  | _ => pyFloat l

/-- `IPCAService.converter_valor_monetario_string`: delete every `.`, turn `,`
into `.`, then strip one leading minus sign, convert with `float`, and restore
the sign. -/
def converter_valor_monetario_string (l : List Char) : Option ℚ :=
  pySigned (replaceChar ',' '.' (l.filter (· ≠ '.')))

/-! ## The IPCA series and the service lookups -/

/-- The in-memory IPCA series: period `"MM/YYYY"` to index value. -/
abbrev IpcaDict := List (String × ℚ)

/-- First-match lookup in an association list (keys are unique in a Python dict). -/
def dictGet (k : String) : IpcaDict → Option ℚ
  | [] => none
  | (k', v) :: rest => if k' = k then some v else dictGet k rest

/-- `IPCAService.obter_ipca_por_periodo`: dictionary lookup of `"MM/YYYY"`,
`none` models the `ValueError` raised when the period is absent. -/
def obter_ipca_por_periodo (d : IpcaDict) (mes ano : String) : Option ℚ :=
  dictGet (mes ++ "/" ++ ano) d

/-- `IPCAService.calcular_media_anual`: arithmetic mean of the values present
for the requested months of a year; `none` models the `ValueError` raised when
none of the months has data. -/
def calcular_media_anual (d : IpcaDict) (ano : String) (meses : List Nat) : Option ℚ :=
  let valores := meses.filterMap fun m => dictGet (⟨zfill2 (toString m).data⟩ ++ "/" ++ ano) d
  if valores.isEmpty then none
  else some (valores.sum / (valores.length : ℚ))

/-- An HTTP-error outcome (`HTTPException(status_code, detail)`). -/
structure HTTPError where
  status_code : Nat
  detail : String
deriving DecidableEq, Repr

/-- Result record of `IPCAService.corrigir_valor`. -/
structure IPCACorrecao where
  valor_inicial : ℚ
  data_inicial : String
  data_final : String
  indice_ipca_inicial : ℚ
  indice_ipca_final : ℚ
  valor_corrigido : ℚ
  percentual_correcao : ℚ
deriving DecidableEq, Repr

/-- `IPCAService.corrigir_valor` (src/app/services/ipca_service.py lines
174-238): the period-presence check (404) runs first, then the negative-value
check (400), then the positivity checks on both indices (400), then the
correction formulas. -/
def corrigir_valor (d : IpcaDict) (valor : ℚ)
    (mes_inicial ano_inicial mes_final ano_final : String) :
    Except HTTPError IPCACorrecao :=
  let data_inicial := mes_inicial ++ "/" ++ ano_inicial
  let data_final := mes_final ++ "/" ++ ano_final
  match dictGet data_inicial d, dictGet data_final d with
  | some indice_ipca_inicial, some indice_ipca_final =>
    if valor < 0 then
      .error ⟨400, "O valor a ser corrigido não pode ser negativo"⟩
    else if indice_ipca_inicial ≤ 0 then
      .error ⟨400, "IPCA inicial inválido. Deve ser maior que zero."⟩
    else if indice_ipca_final ≤ 0 then
      .error ⟨400, "IPCA final inválido. Deve ser maior que zero."⟩
    else
      .ok { valor_inicial := valor
            data_inicial := data_inicial
            data_final := data_final
            indice_ipca_inicial := indice_ipca_inicial
            indice_ipca_final := indice_ipca_final
            valor_corrigido := pyRound (valor * (indice_ipca_final / indice_ipca_inicial)) 2
            percentual_correcao := pyRound ((indice_ipca_final / indice_ipca_inicial - 1) * 100) 4 }
  | _, _ => .error ⟨404, "IPCA para data inicial ou final não encontrado"⟩

/-! ## Circuit breaker (src/app/utils/carregar_ipca.py lines 18-72) -/

inductive CBState
  | CLOSED
  | OPEN
  | HALF_OPEN
deriving DecidableEq, Repr

/-- Circuit-breaker state; times are seconds on a global clock. -/
structure CircuitBreaker where
  max_failures : Nat
  timeout_seconds : Nat
  failures : Nat
  last_failure_time : Option Nat
  state : CBState
deriving DecidableEq, Repr

/-- `CircuitBreaker.__init__(max_failures, timeout_seconds)`. -/
def CircuitBreaker.init (maxF timeoutS : Nat) : CircuitBreaker :=
  ⟨maxF, timeoutS, 0, none, .CLOSED⟩

/-- `CircuitBreaker.is_open`, returning the boolean together with the possibly
updated breaker (the OPEN-to-HALF_OPEN flip is a side effect of the check). -/
def CircuitBreaker.is_open (cb : CircuitBreaker) (now : Nat) : Bool × CircuitBreaker :=
  if cb.state = .OPEN then
    match cb.last_failure_time with
    | some t =>
      if cb.timeout_seconds ≤ now - t then (false, { cb with state := .HALF_OPEN })
      else (true, cb)
    | none => (true, cb)
  else (false, cb)

/-- `CircuitBreaker.record_failure`. -/
def CircuitBreaker.record_failure (cb : CircuitBreaker) (now : Nat) : CircuitBreaker :=
  let cb' := { cb with failures := cb.failures + 1, last_failure_time := some now }
  if cb.max_failures ≤ cb'.failures then { cb' with state := .OPEN } else cb'

/-- `CircuitBreaker.record_success`. -/
def CircuitBreaker.record_success (cb : CircuitBreaker) : CircuitBreaker :=
  { cb with failures := 0, state := .CLOSED, last_failure_time := none }

/-! ## IPCA file cache (src/app/utils/ipca_cache.py lines 68-150) -/

/-- The persisted cache document. -/
structure CacheDoc where
  ultima_atualizacao : Nat
  total_registros : Nat
  anos_disponiveis : List Int
  periodo_inicio : String
  periodo_fim : String
  ultimo_periodo : Option String
  info : String
  dados : IpcaDict
deriving DecidableEq, Repr

/-- Python `==` on two dictionaries given as association lists: same keys and
the same value at every key. -/
def dictEqB (a b : IpcaDict) : Bool :=
  (a.all fun p => dictGet p.1 b = some p.2) && (b.all fun p => dictGet p.1 a = some p.2)

/-- The metadata fold of `salvar_cache`: collect the distinct years and the
chronologically last period, skipping periods that do not parse (`ValueError`
is caught with `continue`). -/
def salvarMeta (dados : IpcaDict) : List Int × Option String :=
  dados.foldl
    (fun (acc : List Int × Option String) p =>
      match (p.1.splitOn "/") with
      | [mes, ano] =>
        match pyInt mes.data, pyInt ano.data with
        | some mi, some ai =>
          let anos := if ai ∈ acc.1 then acc.1 else acc.1 ++ [ai]
          match acc.2 with
          | none => (anos, some p.1)
          | some ult =>
            match ult.splitOn "/" with
            | [umes, uano] =>
              match pyInt umes.data, pyInt uano.data with
              | some umi, some uai =>
                if uai < ai ∨ (ai = uai ∧ umi < mi) then (anos, some p.1)
                else (anos, some ult)
              | _, _ => (anos, some ult)
            | _ => (anos, some ult)
        | _, _ => acc
      | _ => acc)
    ([], none)

/-- `IPCACache.salvar_cache`: refuse an empty series (returning `false` and
leaving the file unchanged); when `forcar` is false and the stored series
equals the incoming one, report success without writing; otherwise write a
fresh document stamped `now`. -/
def salvar_cache (st : Option CacheDoc) (ipca_dict : IpcaDict) (info : String)
    (forcar : Bool) (now : Nat) : Bool × Option CacheDoc :=
  if ipca_dict.isEmpty then (false, st)
  else if !forcar &&
      (match st with
       | some doc => dictEqB doc.dados ipca_dict
       | none => false) then (true, st)
  else
    let meta := salvarMeta ipca_dict
    let anos := pySorted meta.1
    (true, some
      { ultima_atualizacao := now
        total_registros := ipca_dict.length
        anos_disponiveis := anos
        periodo_inicio := match anos.head? with | some a => toString a | none => "N/A"
        periodo_fim := match anos.getLast? with | some a => toString a | none => "N/A"
        ultimo_periodo := meta.2
        info := info
        dados := ipca_dict })

/-! ## Health check (src/app/main.py lines 144-182)

The route obtains the IPCA service through `get_ipca_service` and asks it for
`obter_status_servico`; that pair of symbols is not part of the sources at
hand (only this caller and the test suite reference them), so the dependency
is modelled abstractly below. -/

/-- Modelled from the spec: the outcome of `get_ipca_service().obter_status_servico()`
(§4.6 `service_status()`), reduced to the one field the route reads, with
`Except` standing for any exception raised while building the report. -/
structure ServiceStatus where
  dados_disponiveis : Bool
deriving DecidableEq, Repr

/-- A health response: HTTP status code plus the JSON fields the route sets. -/
structure HealthResponse where
  status_code : Nat
  status : String
  error : Option String
  aviso : Option String
deriving DecidableEq, Repr

/-- `health_check`: a successful status report yields a 200 `healthy` body
(with an `aviso` when no IPCA data is loaded); any exception is caught and
converted to a 200 `degraded` body. -/
def health_check (dep : Except String ServiceStatus) : HealthResponse :=
  match dep with
  | .ok st =>
    { status_code := 200
      status := "healthy"
      error := none
      aviso := if st.dados_disponiveis then none
               else some "Serviço funcionando com capacidade limitada (sem dados IPCA)" }
  | .error e =>
    { status_code := 200
      status := "degraded"
      error := some e
      aviso := some "Serviço parcialmente funcional" }

/-! ## Scraped records and the monetary correctors -/

/-- The `_correcao_aplicada` metadata dictionary attached to corrected records. -/
structure Correcao where
  fator_correcao : ℚ
  ipca_periodo : ℚ
  ipca_referencia : ℚ
  periodo_referencia : String
  tipo_correcao : String
deriving DecidableEq, Repr

/-- A scraped record: its ordinary string-valued fields plus the optional
`_correcao_aplicada` metadata entry (numbers appear through their `str` image,
as the code itself applies `str(...)` before using any field). -/
structure Record where
  fields : List (String × String)
  correcao : Option Correcao
deriving DecidableEq, Repr

/-- `campo in item` followed by reading `item[campo]`. -/
def Record.get (r : Record) (k : String) : Option String :=
  go r.fields
where
  go : List (String × String) → Option String
    | [] => none
    | (k', v) :: rest => if k' = k then some v else go rest

/-- Python dictionary assignment `item[campo] = v`. -/
def setField (k v : String) : List (String × String) → List (String × String)
  | [] => [(k, v)]
  | (k', v') :: rest => if k' = k then (k, v) :: rest else (k', v') :: setField k v rest

/-- An entry of the unprocessed list: the original record and the reason. -/
structure NaoProcessado where
  item_original : Record
  motivo : String
deriving DecidableEq, Repr

/-- `if ano_contexto:` on an optional integer (zero is falsy). -/
def pyTruthyInt (o : Option Int) : Bool :=
  match o with
  | some a => a ≠ 0
  | none => false

/-- The fixed list of recognized monetary field names. -/
def campos_monetarios : List String :=
  ["ORCAMENTO_INICIAL_LOA", "TOTAL_ORCAMENTARIO_ATE_MES", "TOTAL_ORCAMENTARIO_NO_MES",
   "DISPONIBILIDADE_ORCAMENTARIA_ATE_MES", "DISPONIBILIDADE_ORCAMENTARIA_NO_MES",
   "EMPENHADO_ATE_MES", "EMPENHADO_NO_MES", "LIQUIDADO_ATE_MES", "LIQUIDADO_NO_MES",
   "PAGO_ATE_MES", "PAGO_NO_MES", "VALOR_TOTAL", "VALOR"]

/-- The inline field conversion of `processar_correcao_dados`
(src/app/utils/data_loader.py lines 538-563): strip thousands dots, turn the
decimal comma into a dot, strip one leading minus, `float`, multiply by the
correction factor, restore the sign, format back in Brazilian style. `none`
models the caught `ValueError`. -/
def corrigirCampo (fator : ℚ) (v : String) : Option String :=
  let s1 := v.data.filter (· ≠ '.')
  let s2 := replaceChar ',' '.' s1
  match s2 with
  | '-' :: rest =>
    (pyFloat rest).map fun valor => (⟨formatar_valor_brasileiro (-(valor * fator))⟩ : String)
  | _ => (pyFloat s2).map fun valor => (⟨formatar_valor_brasileiro (valor * fator)⟩ : String)

/-- The monetary-field loop of the data_loader corrector: walk the fixed field
list, converting each present, truthy field in place; report whether any field
was converted. -/
def aplicarCampos (fator : ℚ) : List String → Record → Record × Bool
  | [], item => (item, false)
  | campo :: rest, item =>
    let (item', b) :=
      match item.get campo with
      | some v =>
        if v ≠ "" then
          match corrigirCampo fator v with
          | some novo => ({ item with fields := setField campo novo item.fields }, true)
          | none => (item, false)
        else (item, false)
      | none => (item, false)
    let (item'', b') := aplicarCampos fator rest item'
    (item'', b || b')

/-- Year extraction of the data_loader corrector (membership checks only, in
the order `ANO`, `ano`, `_ano_validado`). -/
def dlExtrairAno (item : Record) : Option String :=
  match item.get "ANO" with
  | some v => some v
  | none =>
    match item.get "ano" with
    | some v => some v
    | none => item.get "_ano_validado"

/-- Month extraction of the data_loader corrector: `MES` then `mes`
(membership only), defaulting to `"12"` when absent or non-numeric. -/
def dlExtrairMes (item : Record) : String :=
  match (match item.get "MES" with | some v => some v | none => item.get "mes") with
  | some m => if pyIsDigit m.data then m else "12"
  | none => "12"

/-- The year-resolution step of the data_loader corrector loop
(src/app/utils/data_loader.py lines 463-487): the context year is used
verbatim when truthy; otherwise the extracted year must be numeric. -/
def dlAnoItem (ano_contexto : Option Int) (item : Record) : Except NaoProcessado String :=
  if pyTruthyInt ano_contexto then .ok (toString (ano_contexto.getD 0))
  else
    match dlExtrairAno item with
    | some a =>
      if pyIsDigit a.data then .ok a
      else .error ⟨item, "Ano inválido: " ++ a⟩
    | none => .error ⟨item, "Ano inválido: None"⟩

/-- The per-item IPCA resolution of the data_loader corrector loop
(src/app/utils/data_loader.py lines 501-529): a month lookup for `"mensal"`,
the precomputed annual mean for `"anual"`; any other correction type leaves
the index unset, so the later division raises a `TypeError` caught by the
per-item handler. -/
def dlIpcaItem (d : IpcaDict) (tipo : String) (medios : List (String × ℚ))
    (item : Record) (mesZ ano : String) : Except NaoProcessado ℚ :=
  if tipo = "mensal" then
    match obter_ipca_por_periodo d mesZ ano with
    | some v => .ok v
    | none => .error ⟨item, "IPCA não encontrado para " ++ mesZ ++ "/" ++ ano⟩
  else if tipo = "anual" then
    match dictGet ano medios with
    | some v => .ok v
    | none => .error ⟨item, "IPCA médio anual não encontrado para " ++ ano⟩
  else .error ⟨item, "Erro no processamento: unsupported operand type(s) for /"⟩

/-- One item of the data_loader corrector loop (src/app/utils/data_loader.py
lines 456-599): resolve the year (context wins), the month, the period's IPCA
index, the correction factor, then convert the monetary fields; every failure
lands the original item on the unprocessed side with its reason (a zero
period index makes the division raise, caught by the per-item handler). -/
def processarItem (d : IpcaDict) (ipca_base : ℚ) (periodo_base tipo : String)
    (ano_contexto : Option Int) (medios : List (String × ℚ)) (item : Record) :
    Except NaoProcessado Record :=
  match dlAnoItem ano_contexto item with
  | .error n => .error n
  | .ok ano =>
    match dlIpcaItem d tipo medios item ⟨zfill2 (dlExtrairMes item).data⟩ ano with
    | .error n => .error n
    | .ok ipca_periodo =>
      if ipca_periodo = 0 then
        .error ⟨item, "Erro no processamento: float division by zero"⟩
      else
        let fator := ipca_base / ipca_periodo
        if (aplicarCampos fator campos_monetarios item).2 then
          .ok { (aplicarCampos fator campos_monetarios item).1 with
                  correcao := some ⟨fator, ipca_periodo, ipca_base, periodo_base, tipo⟩ }
        else .error ⟨item, "Nenhum campo monetário válido encontrado"⟩

/-- The item loop: each input lands on exactly one side, in input order. -/
def loopItens (d : IpcaDict) (ipca_base : ℚ) (periodo_base tipo : String)
    (ano_contexto : Option Int) (medios : List (String × ℚ)) :
    List Record → List Record × List NaoProcessado
  | [] => ([], [])
  | item :: rest =>
    let r := loopItens d ipca_base periodo_base tipo ano_contexto medios rest
    match processarItem d ipca_base periodo_base tipo ano_contexto medios item with
    | .ok c => (c :: r.1, r.2)
    | .error n => (r.1, n :: r.2)

/-- Insert a month into a year's month set (a Python `set`, kept deduplicated). -/
def addMes (ano : String) (m : Nat) : List (String × List Nat) → List (String × List Nat)
  | [] => [(ano, [m])]
  | (a, ms) :: rest =>
    if a = ano then (a, if m ∈ ms then ms else ms ++ [m]) :: rest
    else (a, ms) :: addMes ano m rest

/-- Replace a year's month set with all twelve months. -/
def setFullMeses (ano : String) : List (String × List Nat) → List (String × List Nat)
  | [] => [(ano, (List.range 12).map (· + 1))]
  | (a, ms) :: rest =>
    if a = ano then (a, (List.range 12).map (· + 1)) :: rest
    else (a, ms) :: setFullMeses ano rest

/-- Month collection for the with-context, non-annual branch of
`processar_correcao_dados` (src/app/utils/data_loader.py lines 388-401): add
each record's numeric month; a record without a usable month sets all twelve
months and stops the loop. -/
def coletaMesesContexto (ano : String) : List Record → List (String × List Nat) →
    List (String × List Nat)
  | [], acc => acc
  | item :: rest, acc =>
    match (match item.get "MES" with | some v => some v | none => item.get "mes") with
    | some m =>
      if pyIsDigit m.data then coletaMesesContexto ano rest (addMes ano (digitsValN m.data) acc)
      else setFullMeses ano acc
    | none => setFullMeses ano acc

/-- Period collection for the no-context branch (src/app/utils/data_loader.py
lines 402-426). -/
def coletaSemContexto : List Record → List (String × List Nat) → List (String × List Nat)
  | [], acc => acc
  | item :: rest, acc =>
    let ano? := dlExtrairAno item
    let mes? := match item.get "MES" with | some v => some v | none => item.get "mes"
    match ano? with
    | some a =>
      if pyIsDigit a.data then
        match mes? with
        | some m =>
          if pyIsDigit m.data then coletaSemContexto rest (addMes a (digitsValN m.data) acc)
          else coletaSemContexto rest (setFullMeses a acc)
        | none => coletaSemContexto rest (setFullMeses a acc)
      else coletaSemContexto rest acc
    | none => coletaSemContexto rest acc

/-- Annual-average computation shared by `processar_correcao_dados`
(src/app/utils/data_loader.py lines 428-437) and
`IPCACalculator.calcular_ipcas_anuais` (src/app/utils/ipca_calculator.py lines
101-124): for each year with a nonempty month set take the service's annual
mean; a missing mean raises (`Except.error`), a zero mean is skipped by the
`if ipca_medio:` truthiness test. -/
def calcularMedios (d : IpcaDict) : List (String × List Nat) →
    Except String (List (String × ℚ))
  | [] => .ok []
  | (ano, meses) :: rest =>
    if meses.isEmpty then calcularMedios d rest
    else
      match calcular_media_anual d ano (pySorted meses) with
      | none => .error ("Nenhum valor IPCA encontrado para " ++ ano)
      | some v =>
        match calcularMedios d rest with
        | .error e => .error e
        | .ok ms => .ok (if v ≠ 0 then (ano, v) :: ms else ms)

/-- The year-to-months collection phase of `processar_correcao_dados`
(src/app/utils/data_loader.py lines 379-426). -/
def dlPeriodos (dados : List Record) (tipo : String) (ano_contexto : Option Int) :
    List (String × List Nat) :=
  if pyTruthyInt ano_contexto then
    let anoS := toString (ano_contexto.getD 0)
    if tipo = "anual" then [(anoS, (List.range 12).map (· + 1))]
    else coletaMesesContexto anoS dados []
  else coletaSemContexto dados []

/-- `processar_correcao_dados` (src/app/utils/data_loader.py lines 351-606):
collect the year-to-months map, precompute annual means when
`tipo_correcao == "anual"` (whose failure aborts the whole call), then run the
per-item loop. -/
def processar_correcao_dados (dados : List Record) (ipca_base : ℚ)
    (periodo_base : String) (d : IpcaDict) (tipo : String) (ano_contexto : Option Int) :
    Except String (List Record × List NaoProcessado) :=
  match (if tipo = "anual" then calcularMedios d (dlPeriodos dados tipo ano_contexto)
         else .ok []) with
  | .error e => .error e
  | .ok medios =>
    .ok (loopItens d ipca_base periodo_base tipo ano_contexto medios dados)

/-! ## `DataExtractor` (src/app/utils/data_processor.py) and
`MonetaryCorrector` (src/app/utils/ipca_calculator.py) -/

/-- `DataExtractor.extrair_ano`: the context year wins; otherwise the first of
`ANO`, `ano`, `_ano_validado` that is present, truthy and numeric. -/
def extrair_ano (item : Record) (ano_contexto : Option Int) : Option String :=
  if pyTruthyInt ano_contexto then some (toString (ano_contexto.getD 0))
  else go ["ANO", "ano", "_ano_validado"]
where
  go : List String → Option String
    | [] => none
    | campo :: rest =>
      match item.get campo with
      | some v =>
        if v ≠ "" && pyIsDigit v.data then some v else go rest
      | none => go rest

/-- `DataExtractor.extrair_mes`: first of `MES`, `mes` that is present, truthy
and numeric, zero-padded; `"12"` otherwise. -/
def extrair_mes (item : Record) : String :=
  go ["MES", "mes"]
where
  go : List String → String
    | [] => "12"
    | campo :: rest =>
      match item.get campo with
      | some v =>
        if v ≠ "" && pyIsDigit v.data then ⟨zfill2 v.data⟩ else go rest
      | none => go rest

/-- `MonetaryCorrector._aplicar_correcao_campos`: convert each present, truthy
monetary field with the service's parser/formatter pair; parse failures skip
the field. -/
def mcAplicarCampos (d_fator : ℚ) : List String → Record → Record × Bool
  | [], item => (item, false)
  | campo :: rest, item =>
    let (item', b) :=
      match item.get campo with
      | some v =>
        if v ≠ "" then
          match converter_valor_monetario_string v.data with
          | some valor =>
            ({ item with
                fields := setField campo ⟨formatar_valor_brasileiro (valor * d_fator)⟩ item.fields },
             true)
          | none => (item, false)
        else (item, false)
      | none => (item, false)
    let (item'', b') := mcAplicarCampos d_fator rest item'
    (item'', b || b')

/-- `MonetaryCorrector._obter_ipca_periodo` (src/app/utils/ipca_calculator.py
lines 280-295) combined with the `if not ipca_periodo` falsiness test of
`_processar_item`: a zero or missing index comes out as `none`. -/
def mcIpcaItem (d : IpcaDict) (tipo : String) (medios : List (String × ℚ))
    (mes ano : String) : Option ℚ :=
  if tipo = "mensal" then
    match obter_ipca_por_periodo d mes ano with
    | some v => if v ≠ 0 then some v else none
    | none => none
  else
    match dictGet ano medios with
    | some v => if v ≠ 0 then some v else none
    | none => none

/-- `MonetaryCorrector._processar_item` (src/app/utils/ipca_calculator.py lines
224-278): `none` in the first component plus a reason, or the corrected item. -/
def mc_processar_item (d : IpcaDict) (ipca_base : ℚ) (periodo_base tipo : String)
    (ano_contexto : Option Int) (medios : List (String × ℚ)) (item : Record) :
    Except NaoProcessado Record :=
  match extrair_ano item ano_contexto with
  | none => .error ⟨item, "Ano inválido: None"⟩
  | some ano =>
    if pyIsDigit ano.data then
      match mcIpcaItem d tipo medios (extrair_mes item) ano with
      | none => .error ⟨item, "IPCA não encontrado para " ++ extrair_mes item ++ "/" ++ ano⟩
      | some ipca_periodo =>
        let fator := ipca_base / ipca_periodo
        if (mcAplicarCampos fator campos_monetarios item).2 then
          .ok { (mcAplicarCampos fator campos_monetarios item).1 with
                  correcao := some ⟨fator, ipca_periodo, ipca_base, periodo_base, tipo⟩ }
        else .error ⟨item, "Nenhum campo monetário válido encontrado"⟩
    else .error ⟨item, "Ano inválido: " ++ ano⟩

/-- `MonetaryCorrector._coletar_periodos` (src/app/utils/ipca_calculator.py
lines 203-222). -/
def mc_coletar_periodos (dados : List Record) (ano_contexto : Option Int) :
    List (String × List Nat) :=
  if pyTruthyInt ano_contexto then
    [(toString (ano_contexto.getD 0), (List.range 12).map (· + 1))]
  else go dados []
where
  go : List Record → List (String × List Nat) → List (String × List Nat)
    | [], acc => acc
    | item :: rest, acc =>
      let ano? := extrair_ano item none
      let mes := extrair_mes item
      match ano? with
      | some a =>
        if pyIsDigit a.data then
          if pyIsDigit mes.data then go rest (addMes a (digitsValN mes.data) acc)
          else go rest (setFullMeses a acc)
        else go rest acc
      | none => go rest acc

/-- The `MonetaryCorrector` item loop (src/app/utils/ipca_calculator.py lines
170-195). -/
def mcLoopItens (d : IpcaDict) (ipca_base : ℚ) (periodo_base tipo : String)
    (ano_contexto : Option Int) (medios : List (String × ℚ)) :
    List Record → List Record × List NaoProcessado
  | [] => ([], [])
  | item :: rest =>
    let r := mcLoopItens d ipca_base periodo_base tipo ano_contexto medios rest
    match mc_processar_item d ipca_base periodo_base tipo ano_contexto medios item with
    | .ok c => (c :: r.1, r.2)
    | .error n => (r.1, n :: r.2)

/-- `MonetaryCorrector.processar_correcao_dados`
(src/app/utils/ipca_calculator.py lines 133-201). -/
def mc_processar_correcao_dados (dados : List Record) (ipca_base : ℚ)
    (periodo_base : String) (tipo : String) (ano_contexto : Option Int) (d : IpcaDict) :
    Except String (List Record × List NaoProcessado) :=
  match (if tipo = "anual" then calcularMedios d (mc_coletar_periodos dados ano_contexto)
         else .ok []) with
  | .error e => .error e
  | .ok medios =>
    .ok (mcLoopItens d ipca_base periodo_base tipo ano_contexto medios dados)

/-! ## Per-year reorganization (src/app/utils/data_loader.py lines 648-703) -/

/-- The per-year aggregate built by `reorganizar_dados_por_ano`. -/
structure AnoAgregado where
  dados : List Record
  total_registros : Nat
  fator_correcao : Option ℚ
  ipca_periodo : Option ℚ
  ipca_referencia : Option ℚ
  periodo_referencia : Option String
  tipo_correcao : Option String
deriving DecidableEq, Repr

/-- The `defaultdict` default aggregate. -/
def AnoAgregado.vazio : AnoAgregado := ⟨[], 0, none, none, none, none, none⟩

/-- Update-or-append on the insertion-ordered year map. -/
def upsertAno (ano : String) (f : AnoAgregado → AnoAgregado) :
    List (String × AnoAgregado) → List (String × AnoAgregado)
  | [] => [(ano, f AnoAgregado.vazio)]
  | (a, g) :: rest =>
    if a = ano then (a, f g) :: rest else (a, g) :: upsertAno ano f rest

/-- `reorganizar_dados_por_ano`: year resolved as `_ano_validado`, `ANO`,
`ano` in that order (membership only); falsy years are skipped; correction
metadata is snapshotted once per year from the first record that carries it,
and the metadata entry is stripped from the stored copy. -/
def reorganizar_dados_por_ano (dados : List Record) : List (String × AnoAgregado) :=
  go dados []
where
  go : List Record → List (String × AnoAgregado) → List (String × AnoAgregado)
    | [], acc => acc
    | item :: rest, acc =>
      let ano? : Option String :=
        match item.get "_ano_validado" with
        | some v => some v
        | none =>
          match item.get "ANO" with
          | some v => some v
          | none => item.get "ano"
      match ano? with
      | none => go rest acc
      | some ano =>
        if ano = "" then go rest acc
        else
          match item.correcao with
          | some corr =>
            go rest (upsertAno ano
              (fun g =>
                let g' :=
                  if g.fator_correcao.isNone then
                    { g with
                        fator_correcao := some corr.fator_correcao
                        ipca_periodo := some corr.ipca_periodo
                        ipca_referencia := some corr.ipca_referencia
                        periodo_referencia := some corr.periodo_referencia
                        tipo_correcao := some corr.tipo_correcao }
                  else g
                { g' with
                    dados := g'.dados ++ [{ item with correcao := none }]
                    total_registros := g'.total_registros + 1 }) acc)
          | none =>
            go rest (upsertAno ano
              (fun g =>
                { g with
                    dados := g.dados ++ [item]
                    total_registros := g.total_registros + 1 }) acc)

/-! ## The streaming orchestrator, synchronous path
(src/app/utils/data_loader.py lines 89-152) -/

/-- One stream event (the orchestrator's dictionaries, as a tagged union). -/
inductive Evento where
  | parcial (ano_processado : Int) (total_registros_ano total_nao_processados_ano : Nat)
      (dados : List Record)
  | completo (total_registros total_nao_processados : Nat) (dados : List Record)
      (dados_nao_processados : List NaoProcessado) (periodo_base_ipca : String)
      (ipca_referencia : ℚ) (tipo_correcao : String)
      (dados_por_ano : List (String × AnoAgregado))
  | erro (msg : String)
  | cancelado (mensagem : String)
deriving DecidableEq, Repr

/-- One year bucket of the crawler response: a dictionary with a `dados` key,
a bare list, or an unrecognized structure. -/
inductive InfoAno where
  | comDados (dados : List Record) (total_registros : Option Nat)
  | lista (dados : List Record)
  | outro
deriving DecidableEq, Repr

/-- The bucket-structure dispatch (src/app/utils/data_loader.py lines 99-109). -/
def InfoAno.extrair : InfoAno → List Record × Nat
  | .comDados ds t => (ds, t.getD ds.length)
  | .lista ds => (ds, ds.length)
  | .outro => ([], 0)

/-- The year loop of the synchronous path: for each bucket, parse the year key
with `int`, correct the bucket's records, emit a `parcial` event, and after the
last bucket emit the aggregated `completo` event. An uncaught exception
(`int` failure or an annual-average failure inside the corrector) aborts the
generator: the second component carries its message and no further event is
produced. -/
def syncLoop (d : IpcaDict) (ipca_base : ℚ) (periodo_base tipo : String) :
    List (String × InfoAno) → List Record → List NaoProcessado →
    List Evento × Option String
  | [], todos, nao =>
    ([.completo todos.length nao.length todos nao periodo_base ipca_base tipo
        (reorganizar_dados_por_ano todos)], none)
  | (ano_str, info) :: rest, todos, nao =>
    let dados_ano := (InfoAno.extrair info).1
    match pyInt ano_str.data with
    | none => ([], some ("invalid literal for int() with base 10: " ++ ano_str))
    | some a =>
      match processar_correcao_dados dados_ano ipca_base periodo_base d tipo (some a) with
      | .error e => ([], some e)
      | .ok pr =>
        let r := syncLoop d ipca_base periodo_base tipo rest (todos ++ pr.1) (nao ++ pr.2)
        (.parcial a pr.1.length pr.2.length pr.1 :: r.1, r.2)

/-- The synchronous branch of `consultar_transparencia_streaming`: a response
without `dados_por_ano` yields a single `erro` event; otherwise the year loop
runs. -/
def streamSincrono (d : IpcaDict) (ipca_base : ℚ) (periodo_base tipo : String)
    (dados_por_ano : Option (List (String × InfoAno))) : List Evento × Option String :=
  match dados_por_ano with
  | none => ([.erro "Formato de resposta inválido"], none)
  | some buckets => syncLoop d ipca_base periodo_base tipo buckets [] []

/-! ## `TransparenciaService.consultar_dados_streaming`
(src/app/services/transparencia_service.py lines 41-102) -/

/-- The cooperative cancellation signal: `some t` means `is_set()` becomes
true from the `t`-th check on (an `asyncio.Event` is never cleared here), and
`none` means it is never set. Check 0 is the one before the stream starts;
check `i + 1` is the one before forwarding the `i`-th upstream event. -/
def isSetAt (cancelAt : Option Nat) (i : Nat) : Bool :=
  match cancelAt with
  | some t => t ≤ i
  | none => false

/-- The forwarding loop: before each upstream event the signal is re-checked;
when it is set a `cancelado` event is emitted and the stream returns. When the
upstream terminates with an exception instead of exhausting, the `except`
branch turns it into `cancelado` (signal set) or `erro`. -/
def forwardChunks (cancelAt : Option Nat) (exc : Option String) :
    List Evento → Nat → List Evento
  | [], i =>
    (match exc with
     | none => []
     | some e =>
       if isSetAt cancelAt i then [.cancelado "Consulta cancelada pelo cliente"]
       else [.erro e])
  | ev :: evs, i =>
    if isSetAt cancelAt i then [.cancelado "Consulta cancelada pelo cliente"]
    else ev :: forwardChunks cancelAt exc evs (i + 1)

/-- `TransparenciaService.consultar_dados_streaming`, as a function of the
inner generator's semantics (its emitted events plus an optional terminal
exception) and of the cancellation signal: the signal is checked once before
the stream starts and again before every forwarded event. -/
def consultar_dados_streaming (upstream : List Evento × Option String)
    (cancelAt : Option Nat) : List Evento :=
  if isSetAt cancelAt 0 then [.cancelado "Consulta cancelada pelo cliente"]
  else forwardChunks cancelAt upstream.2 upstream.1 1

/-! ## Observation helpers on event streams -/

/-- Whether an event is a `parcial` event. -/
def Evento.isParcial : Evento → Bool
  | .parcial _ _ _ _ => true
  | _ => false

/-- Whether an event is a `completo` event. -/
def Evento.isCompleto : Evento → Bool
  | .completo _ _ _ _ _ _ _ _ => true
  | _ => false

/-- The concatenation of the `dados` payloads of the `parcial` events. -/
def parcialDados : List Evento → List Record
  | [] => []
  | .parcial _ _ _ ds :: rest => ds ++ parcialDados rest
  | _ :: rest => parcialDados rest

/-- The sum of the per-year unprocessed counts over the `parcial` events. -/
def parcialNaoSum : List Evento → Nat
  | [] => 0
  | .parcial _ _ n _ :: rest => n + parcialNaoSum rest
  | _ :: rest => parcialNaoSum rest

/-- The `dados` payload of a `completo` event, when the event is one. -/
def completoDados : Option Evento → Option (List Record)
  | some (.completo _ _ ds _ _ _ _ _) => some ds
  | _ => none

/-! ## General lemmas -/

theorem roundHalfEvenZ_zero : roundHalfEvenZ 0 = 0 := by
  norm_num [roundHalfEvenZ]

theorem pyRound_zero (n : Nat) : pyRound 0 n = 0 := by
  simp [pyRound, roundHalfEvenZ_zero]

/-! ## C8: the circuit-breaker protocol -/

/-- C8: `record_failure` increments the counter and timestamps it, and with
`max_failures = 3` reaching three failures moves the state to OPEN; `is_open`
returns true while OPEN and fewer than 300 seconds have elapsed since the last
failure, and once 300 seconds have elapsed it flips the state to HALF_OPEN and
returns false; `record_success` resets the counter and returns to CLOSED from
any state. -/
theorem C8_circuit_breaker_protocol :
    (∀ (cb : CircuitBreaker) (now : Nat),
        (cb.record_failure now).failures = cb.failures + 1 ∧
        (cb.record_failure now).last_failure_time = some now ∧
        (cb.max_failures = 3 → 3 ≤ cb.failures + 1 →
          (cb.record_failure now).state = .OPEN)) ∧
    (∀ (cb : CircuitBreaker) (now t : Nat),
        cb.state = .OPEN → cb.last_failure_time = some t → cb.timeout_seconds = 300 →
        (now - t < 300 → cb.is_open now = (true, cb)) ∧
        (300 ≤ now - t → cb.is_open now = (false, { cb with state := .HALF_OPEN }))) ∧
    (∀ cb : CircuitBreaker,
        cb.record_success =
          { cb with failures := 0, state := .CLOSED, last_failure_time := none }) := by
  refine ⟨fun cb now => ⟨?_, ?_, ?_⟩, fun cb now t h1 h2 h3 => ⟨?_, ?_⟩, fun cb => rfl⟩
  · simp only [CircuitBreaker.record_failure]
    split <;> rfl
  · simp only [CircuitBreaker.record_failure]
    split <;> rfl
  · intro hmax hge
    simp only [CircuitBreaker.record_failure]
    rw [if_pos (by omega)]
  · intro hlt
    simp only [CircuitBreaker.is_open, h1, h2, h3, if_true]
    rw [if_neg (by omega)]
  · intro hge
    simp only [CircuitBreaker.is_open, h1, h2, h3, if_true]
    rw [if_pos hge, ← h2]

/-- Witness for C8 at concrete states and times. -/
theorem C8_circuit_breaker_protocol_witness :
    ((⟨3, 300, 2, some 7, .CLOSED⟩ : CircuitBreaker).record_failure 9).state = CBState.OPEN ∧
    (⟨3, 300, 3, some 9, .OPEN⟩ : CircuitBreaker).is_open 10 =
      (true, (⟨3, 300, 3, some 9, .OPEN⟩ : CircuitBreaker)) ∧
    (⟨3, 300, 3, some 9, .OPEN⟩ : CircuitBreaker).is_open 309 =
      (false, (⟨3, 300, 3, some 9, .HALF_OPEN⟩ : CircuitBreaker)) ∧
    (⟨3, 300, 3, some 9, .HALF_OPEN⟩ : CircuitBreaker).record_success =
      (⟨3, 300, 0, none, .CLOSED⟩ : CircuitBreaker) :=
  ⟨(C8_circuit_breaker_protocol.1 _ 9).2.2 rfl (by norm_num),
   (C8_circuit_breaker_protocol.2.1 _ 10 9 rfl rfl rfl).1 (by norm_num),
   (C8_circuit_breaker_protocol.2.1 _ 309 9 rfl rfl rfl).2 (by norm_num),
   C8_circuit_breaker_protocol.2.2 _⟩

/-! ## C2: the health route never fails -/

/-- C2: for every outcome of the internal status dependency, `health_check`
responds with HTTP 200; when the dependency fails the body carries
`status = "degraded"` (never a 5xx), and when it succeeds it carries
`status = "healthy"`. -/
theorem C2_health_always_200 :
    ∀ dep : Except String ServiceStatus,
      (health_check dep).status_code = 200 ∧
      (∀ e, dep = .error e →
        (health_check dep).status = "degraded" ∧ (health_check dep).error = some e) ∧
      (∀ st, dep = .ok st → (health_check dep).status = "healthy") := by
  intro dep
  cases dep <;> simp [health_check]

/-- Witness for C2 with every internal dependency failing. -/
theorem C2_health_always_200_witness :
    (health_check (.error "IPCA service indisponível")).status_code = 200 ∧
    (health_check (.error "IPCA service indisponível")).status = "degraded" :=
  ⟨(C2_health_always_200 _).1,
   ((C2_health_always_200 _).2.1 _ rfl).1⟩

/-! ## C9: the cache save is a no-op on empty or unchanged series -/

/-- C9: `salvar_cache` refuses an empty series, reporting failure and leaving
the stored document (including its timestamp) unchanged; and when `forcar` is
false and the incoming series equals the stored one, it reports success
without writing, so the stored document and its `ultima_atualizacao` are
unchanged. -/
theorem C9_salvar_cache_frame :
    ∀ (st : Option CacheDoc) (series : IpcaDict) (info : String) (forcar : Bool) (now : Nat),
      (series = [] → salvar_cache st series info forcar now = (false, st)) ∧
      (∀ doc, st = some doc → forcar = false → series ≠ [] →
        dictEqB doc.dados series = true →
        salvar_cache st series info forcar now = (true, st)) := by
  intro st series info forcar now
  constructor
  · intro h
    subst h
    rfl
  · intro doc hst hf hne heq
    subst hst
    subst hf
    have hempty : series.isEmpty = false := by
      cases series with
      | nil => exact absurd rfl hne
      | cons a l => rfl
    simp [salvar_cache, hempty, heq]

/-- Witness for C9: saving the very series already stored reports success and
leaves the stored document, timestamp included, untouched. -/
theorem C9_salvar_cache_frame_witness :
    salvar_cache
      (some ⟨77, 1, [2020], "2020", "2020", some "01/2020", "info", [("01/2020", 100)]⟩)
      [("01/2020", 100)] "info nova" false 999 =
      (true,
       some ⟨77, 1, [2020], "2020", "2020", some "01/2020", "info", [("01/2020", 100)]⟩) :=
  (C9_salvar_cache_frame _ _ "info nova" false 999).2 _ rfl rfl
    (by decide) (by decide)

/-! ## C3: negative amounts and the check order in `corrigir_valor` -/

/-- Counterexample to C3 as stated: with both periods absent from the series,
`corrigir_valor` with the negative amount `-1000` fails with the
404/NotFound-kind error (the period-presence check at line 195 runs before the
negative-amount check at line 201), not with an InvalidInput-kind error. -/
theorem C3_counterexample :
    corrigir_valor [] (-1000) "01" "2020" "12" "2023" =
      .error ⟨404, "IPCA para data inicial ou final não encontrado"⟩ := by
  rfl

/-- C3 amended: whenever both periods are present in the loaded series, a
negative `valor` fails with the 400/InvalidInput-kind error (when a period is
absent, the NotFound check fires first instead). -/
theorem C3_amended_negative_rejected :
    ∀ (d : IpcaDict) (valor : ℚ) (m1 a1 m2 a2 : String) (i1 i2 : ℚ),
      dictGet (m1 ++ "/" ++ a1) d = some i1 →
      dictGet (m2 ++ "/" ++ a2) d = some i2 →
      valor < 0 →
      corrigir_valor d valor m1 a1 m2 a2 =
        .error ⟨400, "O valor a ser corrigido não pode ser negativo"⟩ := by
  intro d valor m1 a1 m2 a2 i1 i2 h1 h2 hneg
  simp only [corrigir_valor, h1, h2]
  rw [if_pos hneg]

/-- Witness for the amended C3 on a two-entry series. -/
theorem C3_amended_negative_rejected_witness :
    corrigir_valor [("01/2020", 100), ("12/2023", 120)] (-1000) "01" "2020" "12" "2023" =
      .error ⟨400, "O valor a ser corrigido não pode ser negativo"⟩ :=
  C3_amended_negative_rejected _ _ "01" "2020" "12" "2023" 100 120
    (by decide) (by decide) (by norm_num)

/-! ## C1: the correction formula -/

/-- C1: whenever both periods are present with strictly positive indices and
`valor ≥ 0`, `corrigir_valor` succeeds with
`valor_corrigido = round(valor * indice_final/indice_inicial, 2)` and
`percentual_correcao = round((indice_final/indice_inicial - 1) * 100, 4)`;
in particular equal indices give `valor_corrigido = round(valor, 2)` and
`percentual_correcao = 0`. -/
theorem C1_corrigir_valor_formula :
    ∀ (d : IpcaDict) (valor i1 i2 : ℚ) (m1 a1 m2 a2 : String),
      dictGet (m1 ++ "/" ++ a1) d = some i1 →
      dictGet (m2 ++ "/" ++ a2) d = some i2 →
      0 < i1 → 0 < i2 → 0 ≤ valor →
      corrigir_valor d valor m1 a1 m2 a2 =
        .ok ⟨valor, m1 ++ "/" ++ a1, m2 ++ "/" ++ a2, i1, i2,
          pyRound (valor * (i2 / i1)) 2, pyRound ((i2 / i1 - 1) * 100) 4⟩ ∧
      (i1 = i2 →
        pyRound (valor * (i2 / i1)) 2 = pyRound valor 2 ∧
        pyRound ((i2 / i1 - 1) * 100) 4 = 0) := by
  intro d valor i1 i2 m1 a1 m2 a2 h1 h2 hi1 hi2 hval
  constructor
  · simp only [corrigir_valor, h1, h2]
    rw [if_neg (not_lt.mpr hval), if_neg (not_le.mpr hi1), if_neg (not_le.mpr hi2)]
  · intro heq
    subst heq
    have hne : i1 ≠ 0 := ne_of_gt hi1
    rw [div_self hne]
    constructor
    · rw [mul_one]
    · norm_num [pyRound_zero]

/-- Witness for C1 at a concrete series where the correction factor is 1.2. -/
theorem C1_corrigir_valor_formula_witness :
    corrigir_valor [("01/2020", 100), ("12/2023", 120)] 1000 "01" "2020" "12" "2023" =
      .ok ⟨1000, "01/2020", "12/2023", 100, 120,
        pyRound (1000 * ((120 : ℚ) / 100)) 2, pyRound (((120 : ℚ) / 100 - 1) * 100) 4⟩ :=
  (C1_corrigir_valor_formula _ 1000 100 120 "01" "2020" "12" "2023"
    (by decide) (by decide) (by norm_num) (by norm_num) (by norm_num)).1

/-! ## C4: cooperative cancellation in the service streaming wrapper -/

theorem forwardChunks_cancel_spec (exc : Option String) :
    ∀ (evs : List Evento) (i t : Nat), i ≤ t → t - i < evs.length →
      forwardChunks (some t) exc evs i =
        evs.take (t - i) ++ [.cancelado "Consulta cancelada pelo cliente"] := by
  intro evs
  induction evs with
  | nil =>
    intro i t h1 h2
    simp at h2
  | cons e evs ih =>
    intro i t h1 h2
    by_cases hti : t ≤ i
    · have hit : t = i := le_antisymm hti h1
      subst hit
      simp [forwardChunks, isSetAt]
    · have hlt : i < t := not_le.mp hti
      have hstep : t - i = (t - (i + 1)) + 1 := by omega
      simp only [forwardChunks, isSetAt, decide_eq_true_eq, if_neg hti]
      rw [hstep, List.take_succ_cons, List.cons_append]
      congr 1
      exact ih (i + 1) t (by omega) (by simp at h2; omega)

/-- C4: if the cancellation signal is set before the stream starts, the
service's streaming operation produces no data event — only the one immediate
`cancelado` termination event; if the signal becomes set before the check
preceding the `t`-th upstream event (with events remaining), the events
forwarded so far are followed by a single `cancelado` event and nothing else. -/
theorem C4_cancellation_short_circuits :
    (∀ (evs : List Evento) (exc : Option String),
        consultar_dados_streaming (evs, exc) (some 0) =
          [.cancelado "Consulta cancelada pelo cliente"]) ∧
    (∀ (evs : List Evento) (exc : Option String) (t : Nat), 1 ≤ t → t ≤ evs.length →
        consultar_dados_streaming (evs, exc) (some t) =
          evs.take (t - 1) ++ [.cancelado "Consulta cancelada pelo cliente"]) := by
  constructor
  · intro evs exc
    simp [consultar_dados_streaming, isSetAt]
  · intro evs exc t h1 h2
    simp only [consultar_dados_streaming, isSetAt, decide_eq_true_eq, if_neg (by omega : ¬ t ≤ 0)]
    exact forwardChunks_cancel_spec exc evs 1 t h1 (by omega)

/-- Witness for C4: pre-set signal yields only the cancellation event; a
signal set after the first of two events yields that event, then `cancelado`,
then nothing. -/
theorem C4_cancellation_short_circuits_witness :
    consultar_dados_streaming ([.erro "x"], none) (some 0) =
      [.cancelado "Consulta cancelada pelo cliente"] ∧
    consultar_dados_streaming ([.parcial 2020 1 0 [], .erro "x"], none) (some 2) =
      [.parcial 2020 1 0 [], .cancelado "Consulta cancelada pelo cliente"] :=
  ⟨C4_cancellation_short_circuits.1 [.erro "x"] none,
   C4_cancellation_short_circuits.2 [.parcial 2020 1 0 [], .erro "x"] none 2
     (by norm_num) (by norm_num)⟩

/-! ## C7: no record is silently dropped by the monetary correctors -/

theorem ne_empty_of_data (s : String) (h : s.data ≠ []) : s ≠ "" := fun hc => h (by rw [hc])

theorem data_append_ne (s t : String) (h : s.data ≠ []) : (s ++ t).data ≠ [] := by
  rw [String.data_append]
  exact fun hc => h (List.append_eq_nil.mp hc).1

theorem dlAnoItem_error (ctx : Option Int) (item : Record) (n : NaoProcessado)
    (h : dlAnoItem ctx item = .error n) : n.item_original = item ∧ n.motivo ≠ "" := by
  unfold dlAnoItem at h
  repeat' split at h
  all_goals try (injection h; done)
  all_goals injection h with h
  all_goals subst h
  all_goals refine ⟨rfl, ne_empty_of_data _ ?_⟩
  · exact data_append_ne _ _ (by decide)
  · show ("Ano inválido: None" : String).data ≠ []
    decide

theorem dlIpcaItem_error (d : IpcaDict) (tipo : String) (medios : List (String × ℚ))
    (item : Record) (mesZ ano : String) (n : NaoProcessado)
    (h : dlIpcaItem d tipo medios item mesZ ano = .error n) :
    n.item_original = item ∧ n.motivo ≠ "" := by
  unfold dlIpcaItem at h
  repeat' split at h
  all_goals try (injection h; done)
  all_goals injection h with h
  all_goals subst h
  all_goals refine ⟨rfl, ne_empty_of_data _ ?_⟩
  · exact data_append_ne _ _ (data_append_ne _ _ (data_append_ne _ _ (by decide)))
  · exact data_append_ne _ _ (by decide)
  · show ("Erro no processamento: unsupported operand type(s) for /" : String).data ≠ []
    decide

theorem processarItem_error (d : IpcaDict) (base : ℚ) (per tipo : String)
    (ctx : Option Int) (medios : List (String × ℚ)) (item : Record) (n : NaoProcessado)
    (h : processarItem d base per tipo ctx medios item = .error n) :
    n.item_original = item ∧ n.motivo ≠ "" := by
  unfold processarItem at h
  cases hA : dlAnoItem ctx item with
  | error n' =>
    rw [hA] at h
    dsimp only at h
    injection h with h
    subst h
    exact dlAnoItem_error ctx item _ hA
  | ok ano =>
    rw [hA] at h
    dsimp only at h
    cases hI : dlIpcaItem d tipo medios item ⟨zfill2 (dlExtrairMes item).data⟩ ano with
    | error n' =>
      rw [hI] at h
      dsimp only at h
      injection h with h
      subst h
      exact dlIpcaItem_error d tipo medios item _ ano _ hI
    | ok ipca =>
      rw [hI] at h
      dsimp only at h
      by_cases h0 : ipca = 0
      · rw [if_pos h0] at h
        injection h with h
        subst h
        refine ⟨rfl, ne_empty_of_data _ ?_⟩
        show ("Erro no processamento: float division by zero" : String).data ≠ []
        decide
      · rw [if_neg h0] at h
        by_cases hC : (aplicarCampos (base / ipca) campos_monetarios item).2 = true
        · rw [if_pos hC] at h
          injection h
        · rw [if_neg hC] at h
          injection h with h
          subst h
          refine ⟨rfl, ne_empty_of_data _ ?_⟩
          show ("Nenhum campo monetário válido encontrado" : String).data ≠ []
          decide

theorem mc_processarItem_error (d : IpcaDict) (base : ℚ) (per tipo : String)
    (ctx : Option Int) (medios : List (String × ℚ)) (item : Record) (n : NaoProcessado)
    (h : mc_processar_item d base per tipo ctx medios item = .error n) :
    n.item_original = item ∧ n.motivo ≠ "" := by
  unfold mc_processar_item at h
  cases hA : extrair_ano item ctx with
  | none =>
    rw [hA] at h
    dsimp only at h
    injection h with h
    subst h
    refine ⟨rfl, ne_empty_of_data _ ?_⟩
    show ("Ano inválido: None" : String).data ≠ []
    decide
  | some ano =>
    rw [hA] at h
    dsimp only at h
    by_cases hD : pyIsDigit ano.data = true
    · rw [if_pos hD] at h
      cases hI : mcIpcaItem d tipo medios (extrair_mes item) ano with
      | none =>
        rw [hI] at h
        dsimp only at h
        injection h with h
        subst h
        exact ⟨rfl, ne_empty_of_data _
          (data_append_ne _ _ (data_append_ne _ _ (data_append_ne _ _ (by decide))))⟩
      | some ipca =>
        rw [hI] at h
        dsimp only at h
        by_cases hC : (mcAplicarCampos (base / ipca) campos_monetarios item).2 = true
        · rw [if_pos hC] at h
          injection h
        · rw [if_neg hC] at h
          injection h with h
          subst h
          refine ⟨rfl, ne_empty_of_data _ ?_⟩
          show ("Nenhum campo monetário válido encontrado" : String).data ≠ []
          decide
    · rw [if_neg hD] at h
      injection h with h
      subst h
      exact ⟨rfl, ne_empty_of_data _ (data_append_ne _ _ (by decide))⟩

theorem loopItens_spec (d : IpcaDict) (base : ℚ) (per tipo : String) (ctx : Option Int)
    (medios : List (String × ℚ)) :
    ∀ dados : List Record,
      (loopItens d base per tipo ctx medios dados).1.length +
        (loopItens d base per tipo ctx medios dados).2.length = dados.length ∧
      ∀ n ∈ (loopItens d base per tipo ctx medios dados).2,
        n.motivo ≠ "" ∧ n.item_original ∈ dados := by
  intro dados
  induction dados with
  | nil => exact ⟨rfl, fun n hn => absurd hn (by simp [loopItens])⟩
  | cons item rest ih =>
    cases hP : processarItem d base per tipo ctx medios item with
    | ok c =>
      constructor
      · simp only [loopItens, hP, List.length_cons]
        have h1 := ih.1
        omega
      · intro n hn
        simp only [loopItens, hP] at hn
        have hm := ih.2 n hn
        exact ⟨hm.1, List.mem_cons_of_mem _ hm.2⟩
    | error n' =>
      constructor
      · simp only [loopItens, hP, List.length_cons]
        have h1 := ih.1
        omega
      · intro n hn
        simp only [loopItens, hP, List.mem_cons] at hn
        rcases hn with h1 | h2
        · subst h1
          have hm := processarItem_error d base per tipo ctx medios item n hP
          refine ⟨hm.2, ?_⟩
          rw [hm.1]
          exact List.mem_cons_self _ _
        · have hm := ih.2 n h2
          exact ⟨hm.1, List.mem_cons_of_mem _ hm.2⟩

theorem mcLoopItens_spec (d : IpcaDict) (base : ℚ) (per tipo : String) (ctx : Option Int)
    (medios : List (String × ℚ)) :
    ∀ dados : List Record,
      (mcLoopItens d base per tipo ctx medios dados).1.length +
        (mcLoopItens d base per tipo ctx medios dados).2.length = dados.length ∧
      ∀ n ∈ (mcLoopItens d base per tipo ctx medios dados).2,
        n.motivo ≠ "" ∧ n.item_original ∈ dados := by
  intro dados
  induction dados with
  | nil => exact ⟨rfl, fun n hn => absurd hn (by simp [mcLoopItens])⟩
  | cons item rest ih =>
    cases hP : mc_processar_item d base per tipo ctx medios item with
    | ok c =>
      constructor
      · simp only [mcLoopItens, hP, List.length_cons]
        have h1 := ih.1
        omega
      · intro n hn
        simp only [mcLoopItens, hP] at hn
        have hm := ih.2 n hn
        exact ⟨hm.1, List.mem_cons_of_mem _ hm.2⟩
    | error n' =>
      constructor
      · simp only [mcLoopItens, hP, List.length_cons]
        have h1 := ih.1
        omega
      · intro n hn
        simp only [mcLoopItens, hP, List.mem_cons] at hn
        rcases hn with h1 | h2
        · subst h1
          have hm := mc_processarItem_error d base per tipo ctx medios item n hP
          refine ⟨hm.2, ?_⟩
          rw [hm.1]
          exact List.mem_cons_self _ _
        · have hm := ih.2 n h2
          exact ⟨hm.1, List.mem_cons_of_mem _ hm.2⟩

/-- C7: whenever either monetary corrector (`processar_correcao_dados` in
data_loader, or `MonetaryCorrector.processar_correcao_dados`) returns a pair
`(corrected, unprocessed)`, every input record lands in exactly one of the two
lists (`len(corrected) + len(unprocessed) = N`), and each unprocessed entry
carries one of the original records together with a non-empty human-readable
reason — no record is silently dropped. -/
theorem C7_no_record_dropped :
    ∀ (dados : List Record) (base : ℚ) (per tipo : String) (ctx : Option Int)
      (d : IpcaDict) (cs : List Record) (ns : List NaoProcessado),
      (processar_correcao_dados dados base per d tipo ctx = .ok (cs, ns) →
        cs.length + ns.length = dados.length ∧
        ∀ n ∈ ns, n.motivo ≠ "" ∧ n.item_original ∈ dados) ∧
      (mc_processar_correcao_dados dados base per tipo ctx d = .ok (cs, ns) →
        cs.length + ns.length = dados.length ∧
        ∀ n ∈ ns, n.motivo ≠ "" ∧ n.item_original ∈ dados) := by
  intro dados base per tipo ctx d cs ns
  constructor
  · intro h
    unfold processar_correcao_dados at h
    cases hm : (if tipo = "anual" then calcularMedios d (dlPeriodos dados tipo ctx)
                else Except.ok ([] : List (String × ℚ))) with
    | error e =>
      rw [hm] at h
      injection h
    | ok medios =>
      rw [hm] at h
      dsimp only at h
      injection h with h
      have hs := loopItens_spec d base per tipo ctx medios dados
      rw [h] at hs
      exact hs
  · intro h
    unfold mc_processar_correcao_dados at h
    cases hm : (if tipo = "anual" then calcularMedios d (mc_coletar_periodos dados ctx)
                else Except.ok ([] : List (String × ℚ))) with
    | error e =>
      rw [hm] at h
      injection h
    | ok medios =>
      rw [hm] at h
      dsimp only at h
      injection h with h
      have hs := mcLoopItens_spec d base per tipo ctx medios dados
      rw [h] at hs
      exact hs

/-- Witness for C7: two scraped records, one correctable and one without any
recognized monetary field, produce one corrected record and one reported
unprocessed entry with a non-empty reason. -/
theorem C7_no_record_dropped_witness :
    ([⟨[("MES", "1"), ("VALOR", "120,00")],
        some ⟨6 / 5, 100, 120, "12/2023", "mensal"⟩⟩] : List Record).length +
      ([⟨⟨[("MES", "1"), ("NOME", "x")], none⟩,
          "Nenhum campo monetário válido encontrado"⟩] : List NaoProcessado).length =
      ([⟨[("MES", "1"), ("VALOR", "100")], none⟩,
        ⟨[("MES", "1"), ("NOME", "x")], none⟩] : List Record).length ∧
    ∀ n ∈ ([⟨⟨[("MES", "1"), ("NOME", "x")], none⟩,
        "Nenhum campo monetário válido encontrado"⟩] : List NaoProcessado),
      n.motivo ≠ "" ∧
        n.item_original ∈ ([⟨[("MES", "1"), ("VALOR", "100")], none⟩,
          ⟨[("MES", "1"), ("NOME", "x")], none⟩] : List Record) :=
  (C7_no_record_dropped
    [⟨[("MES", "1"), ("VALOR", "100")], none⟩, ⟨[("MES", "1"), ("NOME", "x")], none⟩]
    120 "12/2023" "mensal" (some 2020) [("01/2020", 100)]
    [⟨[("MES", "1"), ("VALOR", "120,00")], some ⟨6 / 5, 100, 120, "12/2023", "mensal"⟩⟩]
    [⟨⟨[("MES", "1"), ("NOME", "x")], none⟩,
      "Nenhum campo monetário válido encontrado"⟩]).1
    (by with_unfolding_all rfl)

/-! ## C5 and C6: the synchronous streaming path -/

theorem syncLoop_spec (d : IpcaDict) (base : ℚ) (per tipo : String) :
    ∀ (buckets : List (String × InfoAno)) (todos : List Record)
      (nao : List NaoProcessado) (evs : List Evento),
      syncLoop d base per tipo buckets todos nao = (evs, none) →
      ∃ todosF naoF,
        evs.getLast? = some (.completo todosF.length naoF.length todosF naoF per base tipo
          (reorganizar_dados_por_ano todosF)) ∧
        todosF = todos ++ parcialDados evs ∧
        naoF.length = nao.length + parcialNaoSum evs ∧
        evs.dropLast.all Evento.isParcial = true ∧
        evs.dropLast.length = buckets.length := by
  intro buckets
  induction buckets with
  | nil =>
    intro todos nao evs h
    unfold syncLoop at h
    injection h with h1 h2
    subst h1
    exact ⟨todos, nao, rfl, (List.append_nil _).symm, (Nat.add_zero _).symm, rfl, rfl⟩
  | cons b rest ih =>
    intro todos nao evs h
    obtain ⟨ano_str, info⟩ := b
    unfold syncLoop at h
    cases hi : pyInt ano_str.data with
    | none =>
      rw [hi] at h
      dsimp only at h
      injection h with h1 h2
      exact Option.noConfusion h2
    | some a =>
      rw [hi] at h
      dsimp only at h
      cases hp : processar_correcao_dados (InfoAno.extrair info).1 base per d tipo (some a) with
      | error e =>
        rw [hp] at h
        dsimp only at h
        injection h with h1 h2
        exact Option.noConfusion h2
      | ok pr =>
        rw [hp] at h
        dsimp only at h
        injection h with h1 h2
        subst h1
        obtain ⟨todosF, naoF, hL, hT, hN, hAll, hLen⟩ :=
          ih (todos ++ pr.1) (nao ++ pr.2)
            (syncLoop d base per tipo rest (todos ++ pr.1) (nao ++ pr.2)).1
            (by rw [← h2])
        have hne : (syncLoop d base per tipo rest (todos ++ pr.1) (nao ++ pr.2)).1 ≠ [] := by
          intro habs
          rw [habs] at hL
          exact Option.noConfusion hL
        obtain ⟨e0, tail, htl⟩ :
            ∃ e0 tail,
              (syncLoop d base per tipo rest (todos ++ pr.1) (nao ++ pr.2)).1 = e0 :: tail := by
          cases hx : (syncLoop d base per tipo rest (todos ++ pr.1) (nao ++ pr.2)).1 with
          | nil => exact absurd hx hne
          | cons x xs => exact ⟨x, xs, rfl⟩
        rw [htl] at hL hT hN hAll hLen
        refine ⟨todosF, naoF, ?_, ?_, ?_, ?_, ?_⟩
        · rw [htl, List.getLast?_cons_cons]
          exact hL
        · rw [htl]
          show todosF = todos ++ (pr.1 ++ parcialDados (e0 :: tail))
          rw [hT, List.append_assoc]
        · rw [htl]
          show naoF.length = nao.length + (pr.2.length + parcialNaoSum (e0 :: tail))
          rw [hN, List.length_append]
          omega
        · rw [htl, List.dropLast_cons₂]
          simp only [List.all_cons, hAll, Bool.and_true]
          rfl
        · rw [htl, List.dropLast_cons₂, List.length_cons, hLen, List.length_cons]

/-- C5 amended: on every successfully completed run of the synchronous path,
the last event is the `completo` event and its `dados` field carries every
corrected record already delivered through the `parcial` events (the
concatenation of their payloads — it is not emptied); `dados_por_ano` is the
per-year reorganization of exactly those records, and `dados_nao_processados`
collects every unprocessed item across all years (its length is the sum of
the per-year unprocessed counts). -/
theorem C5_completo_aggregates :
    ∀ (d : IpcaDict) (base : ℚ) (per tipo : String)
      (buckets : List (String × InfoAno)) (evs : List Evento),
      streamSincrono d base per tipo (some buckets) = (evs, none) →
      ∃ todosF naoF,
        evs.getLast? = some (.completo todosF.length naoF.length todosF naoF per base tipo
          (reorganizar_dados_por_ano todosF)) ∧
        todosF = parcialDados evs ∧
        naoF.length = parcialNaoSum evs := by
  intro d base per tipo buckets evs h
  unfold streamSincrono at h
  obtain ⟨todosF, naoF, hL, hT, hN, _, _⟩ := syncLoop_spec d base per tipo buckets [] [] evs h
  exact ⟨todosF, naoF, hL, by simpa using hT, by simpa using hN⟩

/-- Counterexample to C5 as stated: on a synchronous response with one year
bucket holding one correctable record, the final `completo` event's `dados`
field is the one corrected record, not the empty list the claim requires. -/
theorem C5_counterexample :
    completoDados
        ((streamSincrono [("01/2020", 100)] 120 "12/2023" "mensal"
          (some [("2020", .lista [⟨[("MES", "1"), ("VALOR", "100")], none⟩])])).1.getLast?) =
      some [⟨[("MES", "1"), ("VALOR", "120,00")],
        some ⟨6 / 5, 100, 120, "12/2023", "mensal"⟩⟩] := by
  with_unfolding_all rfl

/-- Witness for the amended C5 on the concrete one-bucket response. -/
theorem C5_completo_aggregates_witness :
    ∃ todosF naoF,
      (streamSincrono [("01/2020", 100)] 120 "12/2023" "mensal"
          (some [("2020", .lista [⟨[("MES", "1"), ("VALOR", "100")], none⟩])])).1.getLast? =
        some (.completo todosF.length naoF.length todosF naoF "12/2023" 120 "mensal"
          (reorganizar_dados_por_ano todosF)) ∧
      todosF = parcialDados (streamSincrono [("01/2020", 100)] 120 "12/2023" "mensal"
          (some [("2020", .lista [⟨[("MES", "1"), ("VALOR", "100")], none⟩])])).1 ∧
      naoF.length = parcialNaoSum (streamSincrono [("01/2020", 100)] 120 "12/2023" "mensal"
          (some [("2020", .lista [⟨[("MES", "1"), ("VALOR", "100")], none⟩])])).1 :=
  C5_completo_aggregates [("01/2020", 100)] 120 "12/2023" "mensal"
    [("2020", .lista [⟨[("MES", "1"), ("VALOR", "100")], none⟩])] _ rfl

/-- Counterexample to C6 as stated: for an annual-type query over a series
with no data for the requested year, the synchronous path aborts with the
uncaught annual-average exception after zero `parcial` events, and no
`completo` event is ever emitted — not the claimed `K` parcials followed by a
terminal `completo`. -/
theorem C6_counterexample :
    streamSincrono [] 120 "2023" "anual"
        (some [("2020", .lista [⟨[("MES", "1"), ("VALOR", "100")], none⟩])]) =
      ([], some "Nenhum valor IPCA encontrado para 2020") := by
  rfl

/-- C6 amended: whenever the synchronous run completes without an exception —
in particular always for `tipo_correcao = "mensal"` with integer year keys —
the event stream is exactly `K` `parcial` events (one per year bucket of the
response), followed by exactly one `completo` event, and no event of any kind
after it. -/
theorem C6_k_parciais_um_completo :
    ∀ (d : IpcaDict) (base : ℚ) (per : String)
      (buckets : List (String × InfoAno)) (evs : List Evento) (exc : Option String),
      (∀ p ∈ buckets, (pyInt (Prod.fst p).data).isSome) →
      streamSincrono d base per "mensal" (some buckets) = (evs, exc) →
      exc = none ∧
      evs.dropLast.all Evento.isParcial = true ∧
      evs.dropLast.length = buckets.length ∧
      ∃ ev, evs.getLast? = some ev ∧ ev.isCompleto = true := by
  intro d base per buckets evs exc hk h
  have hnone : exc = none := by
    have key : ∀ (bs : List (String × InfoAno)), (∀ p ∈ bs, (pyInt (Prod.fst p).data).isSome) →
        ∀ (todos : List Record) (nao : List NaoProcessado),
        (syncLoop d base per "mensal" bs todos nao).2 = none := by
      intro bs
      induction bs with
      | nil => intro _ todos nao; rfl
      | cons b rest ih =>
        intro hks todos nao
        obtain ⟨ano_str, info⟩ := b
        have hb : (pyInt ano_str.data).isSome := hks _ (List.mem_cons_self _ _)
        unfold syncLoop
        cases hi : pyInt ano_str.data with
        | none => rw [hi] at hb; exact absurd hb (by simp)
        | some a =>
          dsimp only
          have hpm : processar_correcao_dados (InfoAno.extrair info).1 base per d "mensal"
              (some a) = .ok (loopItens d base per "mensal" (some a) [] (InfoAno.extrair info).1) := by
            rfl
          rw [hpm]
          dsimp only
          exact ih (fun p hp => hks p (List.mem_cons_of_mem _ hp)) _ _
    unfold streamSincrono at h
    have h2 := congrArg Prod.snd h
    dsimp only at h2
    rw [key buckets hk [] []] at h2
    exact h2.symm
  subst hnone
  obtain ⟨todosF, naoF, hL, _, _, hAll, hLen⟩ :=
    syncLoop_spec d base per "mensal" buckets [] [] evs (by
      unfold streamSincrono at h
      exact h)
  exact ⟨rfl, hAll, hLen, ⟨_, hL, rfl⟩⟩

/-- Witness for the amended C6 on a concrete two-bucket monthly response. -/
theorem C6_k_parciais_um_completo_witness :
    (none : Option String) = none ∧
    ((streamSincrono [("01/2020", 100), ("01/2021", 110)] 120 "12/2023" "mensal"
        (some [("2020", .lista [⟨[("MES", "1"), ("VALOR", "100")], none⟩]),
               ("2021", .lista [⟨[("MES", "1"), ("VALOR", "200")], none⟩])])).1.dropLast.all
      Evento.isParcial = true) ∧
    (streamSincrono [("01/2020", 100), ("01/2021", 110)] 120 "12/2023" "mensal"
        (some [("2020", .lista [⟨[("MES", "1"), ("VALOR", "100")], none⟩]),
               ("2021", .lista [⟨[("MES", "1"), ("VALOR", "200")], none⟩])])).1.dropLast.length =
      ([("2020", InfoAno.lista [⟨[("MES", "1"), ("VALOR", "100")], none⟩]),
        ("2021", InfoAno.lista [⟨[("MES", "1"), ("VALOR", "200")], none⟩])] :
        List (String × InfoAno)).length ∧
    ∃ ev,
      (streamSincrono [("01/2020", 100), ("01/2021", 110)] 120 "12/2023" "mensal"
          (some [("2020", .lista [⟨[("MES", "1"), ("VALOR", "100")], none⟩]),
                 ("2021", .lista [⟨[("MES", "1"), ("VALOR", "200")], none⟩])])).1.getLast? =
        some ev ∧ ev.isCompleto = true :=
  C6_k_parciais_um_completo [("01/2020", 100), ("01/2021", 110)] 120 "12/2023"
    [("2020", .lista [⟨[("MES", "1"), ("VALOR", "100")], none⟩]),
     ("2021", .lista [⟨[("MES", "1"), ("VALOR", "200")], none⟩])] _ _
    (by decide) rfl

/-! ## C10: the Brazilian-amount parser and formatter -/
theorem isDigitChar_digitChar (k : Nat) : isDigitChar (digitChar k) = true := by
  rcases k with _|_|_|_|_|_|_|_|_|n <;> rfl

theorem charDigit_digitChar (k : Nat) (h : k < 10) : charDigit (digitChar k) = k := by
  interval_cases k <;> rfl

theorem digitChar_ne (k : Nat) (c : Char) (hc : isDigitChar c = false) : digitChar k ≠ c := by
  intro h
  rw [← h, isDigitChar_digitChar] at hc
  cases hc

theorem natDigitsFuel_lt (fuel n d : Nat) (h : d ∈ natDigitsFuel fuel n) : d < 10 := by
  induction fuel generalizing n with
  | zero => cases h
  | succ fuel ih =>
    unfold natDigitsFuel at h
    by_cases h0 : n = 0
    · rw [if_pos h0] at h
      cases h
    · rw [if_neg h0] at h
      rcases List.mem_cons.mp h with h1 | h2
      · subst h1
        exact Nat.mod_lt _ (by norm_num)
      · exact ih _ h2

theorem natDigitsFuel_ofDigits (fuel n : Nat) (h : n ≤ fuel) :
    Nat.ofDigits 10 (natDigitsFuel fuel n) = n := by
  induction fuel generalizing n with
  | zero => simp [natDigitsFuel]; omega
  | succ fuel ih =>
    unfold natDigitsFuel
    by_cases h0 : n = 0
    · rw [if_pos h0]
      simp [Nat.ofDigits, h0]
    · rw [if_neg h0]
      rw [Nat.ofDigits_cons, ih (n / 10) (by omega)]
      omega

theorem digitsValN_append (l : List Char) (c : Char) :
    digitsValN (l ++ [c]) = 10 * digitsValN l + charDigit c := by
  simp [digitsValN, List.foldl_append]

theorem digitsValN_reverse_map (ds : List Nat) (h : ∀ d ∈ ds, d < 10) :
    digitsValN ((ds.map digitChar).reverse) = Nat.ofDigits 10 ds := by
  induction ds with
  | nil => rfl
  | cons d ds ih =>
    simp only [List.map_cons, List.reverse_cons]
    rw [digitsValN_append, ih (fun x hx => h x (List.mem_cons_of_mem _ hx)),
      charDigit_digitChar d (h d (List.mem_cons_self _ _)), Nat.ofDigits_cons]
    ring

theorem digitsValN_reverse_lsd (n : Nat) : digitsValN ((lsdDigits n).reverse) = n := by
  by_cases h0 : n = 0
  · subst h0
    rfl
  · unfold lsdDigits
    rw [if_neg h0, digitsValN_reverse_map _ (natDigitsFuel_lt n n),
      natDigitsFuel_ofDigits n n le_rfl]

theorem lsdDigits_ne_nil (n : Nat) : lsdDigits n ≠ [] := by
  unfold lsdDigits
  by_cases h0 : n = 0
  · rw [if_pos h0]
    exact List.cons_ne_nil _ _
  · rw [if_neg h0]
    cases n with
    | zero => exact absurd rfl h0
    | succ m =>
      simp only [natDigitsFuel]
      rw [if_neg h0]
      simp

theorem lsdDigits_digits (n : Nat) : ∀ c ∈ lsdDigits n, isDigitChar c = true := by
  unfold lsdDigits
  by_cases h0 : n = 0
  · rw [if_pos h0]
    intro c hc
    rcases List.mem_singleton.mp hc with rfl
    rfl
  · rw [if_neg h0]
    intro c hc
    obtain ⟨d, _, rfl⟩ := List.mem_map.mp hc
    exact isDigitChar_digitChar d

theorem group3_filter (l : List Char) (k : Nat) (h : ∀ c ∈ l, c ≠ ',') :
    (group3 l k).filter (· ≠ ',') = l := by
  induction l generalizing k with
  | nil => rfl
  | cons c cs ih =>
    have hc : c ≠ ',' := h c (List.mem_cons_self _ _)
    have hcs : ∀ x ∈ cs, x ≠ ',' := fun x hx => h x (List.mem_cons_of_mem _ hx)
    unfold group3
    by_cases hk : k = 3
    · rw [if_pos hk]
      simp [List.filter_cons, hc]
      simpa using ih 1 hcs
    · rw [if_neg hk]
      simp [List.filter_cons, hc]
      simpa using ih (k + 1) hcs

theorem group3_mem (l : List Char) (k : Nat) (c : Char) (h : c ∈ group3 l k) :
    c = ',' ∨ c ∈ l := by
  induction l generalizing k with
  | nil => cases h
  | cons x xs ih =>
    unfold group3 at h
    by_cases hk : k = 3
    · rw [if_pos hk] at h
      rcases List.mem_cons.mp h with h1 | h2
      · exact Or.inl h1
      · rcases List.mem_cons.mp h2 with h3 | h4
        · exact Or.inr (h3 ▸ List.mem_cons_self _ _)
        · rcases ih 1 h4 with h5 | h6
          · exact Or.inl h5
          · exact Or.inr (List.mem_cons_of_mem _ h6)
    · rw [if_neg hk] at h
      rcases List.mem_cons.mp h with h1 | h2
      · exact Or.inr (h1 ▸ List.mem_cons_self _ _)
      · rcases ih (k + 1) h2 with h3 | h4
        · exact Or.inl h3
        · exact Or.inr (List.mem_cons_of_mem _ h4)

theorem replaceChar_id (a b : Char) (l : List Char) (h : ∀ c ∈ l, c ≠ a) :
    replaceChar a b l = l := by
  induction l with
  | nil => rfl
  | cons x xs ih =>
    have hid := ih (fun c hc => h c (List.mem_cons_of_mem _ hc))
    simp only [replaceChar, List.map_cons] at *
    rw [if_neg (h x (List.mem_cons_self _ _)), hid]

theorem swap_char (c : Char) (h : c ≠ 'X') :
    (if (if (if c = ',' then 'X' else c) = '.' then ',' else if c = ',' then 'X' else c) = 'X'
      then '.' else if (if c = ',' then 'X' else c) = '.' then ','
      else if c = ',' then 'X' else c) =
    (if c = ',' then '.' else if c = '.' then ',' else c) := by
  by_cases h1 : c = ','
  · subst h1
    rfl
  · rw [if_neg h1, if_neg h1]
    by_cases h2 : c = '.'
    · subst h2
      rfl
    · rw [if_neg h2, if_neg h]

theorem swap_composite (l : List Char) (h : ∀ c ∈ l, c ≠ 'X') :
    replaceChar 'X' '.' (replaceChar '.' ',' (replaceChar ',' 'X' l)) =
      l.map (fun c => if c = ',' then '.' else if c = '.' then ',' else c) := by
  unfold replaceChar
  rw [List.map_map, List.map_map]
  refine List.map_congr_left (fun c hc => ?_)
  simp only [Function.comp]
  exact swap_char c (h c hc)

theorem isDigit_ne (c x : Char) (h : isDigitChar c = true) (hx : isDigitChar x = false) :
    c ≠ x := by
  intro he
  rw [he, hx] at h
  cases h

theorem roundcents (c : ℤ) : roundHalfEvenZ ((c : ℚ) / 100 * 100) = c := by
  have h : (c : ℚ) / 100 * 100 = (c : ℚ) :=
    div_mul_cancel₀ _ (by norm_num)
  rw [h]
  unfold roundHalfEvenZ
  rw [Int.floor_intCast]
  norm_num

theorem sign_cond (c : ℤ) : ((c : ℚ) / 100 < 0) = (c < 0) := by
  apply propext
  rw [div_lt_iff₀ (by norm_num : (0 : ℚ) < 100)]
  norm_num

theorem formatEng_cents (c : ℤ) :
    formatEng ((c : ℚ) / 100) =
      (if c < 0 then ['-'] else []) ++ (group3 (lsdDigits (c.natAbs / 100)) 0).reverse ++
        '.' :: [digitChar (c.natAbs % 100 / 10), digitChar (c.natAbs % 100 % 10)] := by
  have hiff : (c : ℚ) / 100 < 0 ↔ c < 0 := by
    rw [div_lt_iff₀ (by norm_num : (0 : ℚ) < 100)]
    norm_num
  unfold formatEng
  rw [roundcents]
  dsimp only
  by_cases hc : c < 0
  · rw [if_pos (hiff.mpr hc), if_pos hc]
  · rw [if_neg (fun hx => hc (hiff.mp hx)), if_neg hc]

theorem takeWhile_dot (ds r : List Char) (h : ∀ c ∈ ds, (decide (c ≠ '.')) = true) :
    List.takeWhile (fun x => decide (x ≠ '.')) (ds ++ '.' :: r) = ds := by
  induction ds with
  | nil => simp [List.takeWhile_cons]
  | cons x xs ih =>
    rw [List.cons_append, List.takeWhile_cons, if_pos (h x (List.mem_cons_self _ _)),
      ih (fun c hc => h c (List.mem_cons_of_mem _ hc))]

theorem dropWhile_dot (ds r : List Char) (h : ∀ c ∈ ds, (decide (c ≠ '.')) = true) :
    List.dropWhile (fun x => decide (x ≠ '.')) (ds ++ '.' :: r) = '.' :: r := by
  induction ds with
  | nil => simp [List.dropWhile_cons]
  | cons x xs ih =>
    rw [List.cons_append, List.dropWhile_cons, if_pos (h x (List.mem_cons_self _ _)),
      ih (fun c hc => h c (List.mem_cons_of_mem _ hc))]

theorem span_dot (ds r : List Char) (h : ∀ c ∈ ds, (decide (c ≠ '.')) = true) :
    List.span (· ≠ '.') (ds ++ '.' :: r) = (ds, '.' :: r) := by
  rw [List.span_eq_take_drop]
  rw [takeWhile_dot ds r h, dropWhile_dot ds r h]

theorem pyFloat_concat (ds : List Char) (f1 f0 : Char)
    (hds : ds.all isDigitChar = true) (hne : ds ≠ [])
    (h1 : isDigitChar f1 = true) (h0 : isDigitChar f0 = true) :
    pyFloat (ds ++ '.' :: [f1, f0]) =
      some ((digitsValN ds : ℚ) + (digitsValN [f1, f0] : ℚ) / (10 : ℚ) ^ ([f1, f0].length)) := by
  have hie : ds.isEmpty = false := by
    cases ds with
    | nil => exact absurd rfl hne
    | cons a l => rfl
  have hmem : ∀ c ∈ ds, (decide (c ≠ '.')) = true := fun c hc =>
    decide_eq_true (isDigit_ne c '.' ((List.all_eq_true.mp hds) c hc) (by decide))
  unfold pyFloat
  rw [span_dot ds [f1, f0] hmem]
  dsimp only
  rw [if_pos (by simp [hds, h1, h0, hie])]

theorem pySigned_neg (t : List Char) :
    pySigned ('-' :: t) = (pyFloat t).map (fun v => -v) := rfl

theorem pySigned_pos (h0 : Char) (t : List Char) (hh : h0 ≠ '-') :
    pySigned (h0 :: t) = pyFloat (h0 :: t) := by
  unfold pySigned
  split
  · rename_i heq
    injection heq with heq1 heq2
    exact absurd heq1 hh
  · rfl

theorem swapF_digit (ch : Char) (h : isDigitChar ch = true) :
    (if ch = ',' then '.' else if ch = '.' then ',' else ch) = ch := by
  rw [if_neg (isDigit_ne ch ',' h (by decide)), if_neg (isDigit_ne ch '.' h (by decide))]

theorem map_swap_filter (M : List Char)
    (h : ∀ ch ∈ M, ch = ',' ∨ isDigitChar ch = true) :
    (M.map (fun ch => if ch = ',' then '.' else if ch = '.' then ',' else ch)).filter
        (· ≠ '.') = M.filter (· ≠ ',') := by
  induction M with
  | nil => rfl
  | cons x xs ih =>
    have hxs := fun ch hc => h ch (List.mem_cons_of_mem _ hc)
    rcases h x (List.mem_cons_self _ _) with rfl | hd
    · simp only [List.map_cons, if_pos rfl, List.filter_cons]
      norm_num
      simpa using ih hxs
    · simp only [List.map_cons, swapF_digit x hd, List.filter_cons]
      rw [if_pos (by simp [isDigit_ne x '.' hd (by decide)]),
        if_pos (by simp [isDigit_ne x ',' hd (by decide)]), ih hxs]

theorem digitsValN_pair (a b : Char) : digitsValN [a, b] = 10 * charDigit a + charDigit b := by
  simp [digitsValN]

theorem core_value (n : Nat) :
    pyFloat ((lsdDigits (n / 100)).reverse ++
        '.' :: [digitChar (n % 100 / 10), digitChar (n % 100 % 10)]) =
      some ((n : ℚ) / 100) := by
  have hall : ((lsdDigits (n / 100)).reverse).all isDigitChar = true := by
    rw [List.all_eq_true]
    intro c hc
    exact lsdDigits_digits _ c (List.mem_reverse.mp hc)
  have hne : (lsdDigits (n / 100)).reverse ≠ [] := by
    simpa using lsdDigits_ne_nil (n / 100)
  rw [pyFloat_concat _ _ _ hall hne (isDigitChar_digitChar _) (isDigitChar_digitChar _)]
  congr 1
  rw [digitsValN_reverse_lsd, digitsValN_pair,
    charDigit_digitChar _ (by omega), charDigit_digitChar _ (by omega)]
  have hfr : 10 * (n % 100 / 10) + n % 100 % 10 = n % 100 := by omega
  rw [hfr]
  have hmod := Nat.div_add_mod n 100
  have hmodq : (100 : ℚ) * (n / 100 : ℕ) + ((n % 100 : ℕ) : ℚ) = (n : ℚ) := by
    exact_mod_cast congrArg (Nat.cast : ℕ → ℚ) hmod
  norm_num
  field_simp
  linarith [hmodq]

theorem replaceChar_append (a b : Char) (l1 l2 : List Char) :
    replaceChar a b (l1 ++ l2) = replaceChar a b l1 ++ replaceChar a b l2 :=
  List.map_append _ _ _

theorem converter_formatar_cents (c : ℤ) :
    converter_valor_monetario_string (formatar_valor_brasileiro ((c : ℚ) / 100)) =
      some ((c : ℚ) / 100) := by
  have hmemE : ∀ ch ∈ formatEng ((c : ℚ) / 100), ch ≠ 'X' := by
    rw [formatEng_cents]
    intro ch hch
    simp only [List.mem_append, List.mem_cons] at hch
    rcases hch with (h1 | h2) | h3
    · by_cases hc : c < 0
      · rw [if_pos hc] at h1
        rcases List.mem_singleton.mp h1 with rfl
        decide
      · rw [if_neg hc] at h1
        cases h1
    · rcases group3_mem _ 0 ch (List.mem_reverse.mp h2) with rfl | hm
      · decide
      · exact isDigit_ne ch 'X' (lsdDigits_digits _ ch hm) (by decide)
    · rcases h3 with rfl | h4
      · decide
      · rcases h4 with rfl | h5
        · exact isDigit_ne _ 'X' (isDigitChar_digitChar _) (by decide)
        · rcases h5 with rfl | h6
          · exact isDigit_ne _ 'X' (isDigitChar_digitChar _) (by decide)
          · cases h6
  have hswap : formatar_valor_brasileiro ((c : ℚ) / 100) =
      (formatEng ((c : ℚ) / 100)).map
        (fun ch => if ch = ',' then '.' else if ch = '.' then ',' else ch) := by
    unfold formatar_valor_brasileiro
    exact swap_composite _ hmemE
  have hLdig : ∀ ch ∈ lsdDigits (c.natAbs / 100), isDigitChar ch = true :=
    lsdDigits_digits _
  have hDGmem : ∀ ch ∈ (group3 (lsdDigits (c.natAbs / 100)) 0).reverse,
      ch = ',' ∨ isDigitChar ch = true := by
    intro ch hch
    rcases group3_mem _ 0 ch (List.mem_reverse.mp hch) with rfl | hm
    · exact Or.inl rfl
    · exact Or.inr (hLdig ch hm)
  have hfilterDG :
      (((group3 (lsdDigits (c.natAbs / 100)) 0).reverse.map
          (fun ch => if ch = ',' then '.' else if ch = '.' then ',' else ch)).filter
        (· ≠ '.')) = (lsdDigits (c.natAbs / 100)).reverse := by
    rw [map_swap_filter _ hDGmem, List.filter_reverse,
      group3_filter _ 0 (fun ch hch => isDigit_ne ch ',' (hLdig ch hch) (by decide))]
  have hreplDG : replaceChar ',' '.' ((lsdDigits (c.natAbs / 100)).reverse) =
      (lsdDigits (c.natAbs / 100)).reverse :=
    replaceChar_id _ _ _
      (fun ch hch => isDigit_ne ch ',' (hLdig ch (List.mem_reverse.mp hch)) (by decide))
  have htailmap : (('.' :: [digitChar (c.natAbs % 100 / 10), digitChar (c.natAbs % 100 % 10)]).map
      (fun ch => if ch = ',' then '.' else if ch = '.' then ',' else ch)) =
      ',' :: [digitChar (c.natAbs % 100 / 10), digitChar (c.natAbs % 100 % 10)] := by
    simp only [List.map_cons, List.map_nil, swapF_digit _ (isDigitChar_digitChar _)]
    rfl
  have htailfilter : ((',' :: [digitChar (c.natAbs % 100 / 10),
      digitChar (c.natAbs % 100 % 10)]).filter (· ≠ '.')) =
      ',' :: [digitChar (c.natAbs % 100 / 10), digitChar (c.natAbs % 100 % 10)] := by
    simp only [List.filter_cons]
    rw [if_pos (by decide),
      if_pos (by simp [isDigit_ne _ '.' (isDigitChar_digitChar _) (by decide)]),
      if_pos (by simp [isDigit_ne _ '.' (isDigitChar_digitChar _) (by decide)])]
    rfl
  have htailrepl : replaceChar ',' '.' (',' :: [digitChar (c.natAbs % 100 / 10),
      digitChar (c.natAbs % 100 % 10)]) =
      '.' :: [digitChar (c.natAbs % 100 / 10), digitChar (c.natAbs % 100 % 10)] := by
    unfold replaceChar
    simp only [List.map_cons, List.map_nil]
    simp only [if_true]
    rw [if_neg (isDigit_ne _ ',' (isDigitChar_digitChar _) (by decide)),
      if_neg (isDigit_ne _ ',' (isDigitChar_digitChar _) (by decide))]
  have hminus : (['-'] : List Char).map
      (fun ch => if ch = ',' then '.' else if ch = '.' then ',' else ch) = ['-'] := by decide
  have hminusf : (['-'] : List Char).filter (· ≠ '.') = ['-'] := by decide
  have hminusr : replaceChar ',' '.' (['-'] : List Char) = ['-'] := by decide
  rw [hswap, formatEng_cents]
  by_cases hc : c < 0
  · rw [if_pos hc]
    unfold converter_valor_monetario_string
    rw [List.map_append, List.map_append, htailmap, hminus,
      List.filter_append, List.filter_append, hminusf, hfilterDG, htailfilter,
      replaceChar_append, replaceChar_append, hminusr, hreplDG, htailrepl,
      List.singleton_append, List.cons_append, pySigned_neg]
    rw [core_value c.natAbs]
    have hcast : ((c.natAbs : ℕ) : ℚ) = -(c : ℚ) := by
      rw [Int.cast_natAbs]
      exact_mod_cast abs_of_neg hc
    dsimp only [Option.map]
    rw [hcast]
    congr 1
    ring
  · rw [if_neg hc]
    unfold converter_valor_monetario_string
    rw [List.nil_append, List.map_append, htailmap,
      List.filter_append, hfilterDG, htailfilter,
      replaceChar_append, hreplDG, htailrepl]
    obtain ⟨h0, t0, ht⟩ : ∃ h0 t0, (lsdDigits (c.natAbs / 100)).reverse = h0 :: t0 := by
      cases hx : (lsdDigits (c.natAbs / 100)).reverse with
      | nil =>
        exact absurd hx (by simpa using lsdDigits_ne_nil (c.natAbs / 100))
      | cons x xs => exact ⟨x, xs, rfl⟩
    have hm : h0 ∈ lsdDigits (c.natAbs / 100) := by
      rw [← List.mem_reverse, ht]
      exact List.mem_cons_self _ _
    rw [ht, List.cons_append,
      pySigned_pos _ _ (isDigit_ne h0 '-' (hLdig h0 hm) (by decide)),
      ← List.cons_append, ← ht, core_value c.natAbs]
    have hcast : ((c.natAbs : ℕ) : ℚ) = (c : ℚ) := by
      rw [Int.cast_natAbs]
      exact_mod_cast abs_of_nonneg (not_lt.mp hc)
    rw [hcast]

/-- C10: the Brazilian-amount parser deletes every `.` before converting when
the input has no comma, so the plain decimal string `"1200.50"` parses to
`120050`, not `1200.5` (= 2401/2); the parser inverts the Brazilian formatter
on every value of the formatter's range (any integer number of cents), while
round-tripping the plain-dot string `"1200.50"` through parse-then-format does
not restore it. -/
theorem C10_parser_formatter :
    converter_valor_monetario_string ("1200.50" : String).data = some (120050 : ℚ) ∧
    converter_valor_monetario_string ("1200.50" : String).data ≠ some ((2401 : ℚ) / 2) ∧
    (∀ l : List Char, ',' ∉ l →
      converter_valor_monetario_string l = pySigned (l.filter (· ≠ '.'))) ∧
    (∀ c : ℤ, converter_valor_monetario_string (formatar_valor_brasileiro ((c : ℚ) / 100)) =
      some ((c : ℚ) / 100)) ∧
    formatar_valor_brasileiro (120050 : ℚ) ≠ ("1200.50" : String).data := by
  refine ⟨?_, ?_, ?_, converter_formatar_cents, ?_⟩
  · with_unfolding_all rfl
  · with_unfolding_all decide
  · intro l hl
    unfold converter_valor_monetario_string
    rw [replaceChar_id ',' '.' _
      (fun c hc he => hl (he ▸ (List.mem_filter.mp hc).1))]
  · with_unfolding_all decide

/-- Witness for C10's no-comma clause at the concrete string `"1200.50"`. -/
theorem C10_parser_formatter_witness :
    converter_valor_monetario_string ("1200.50" : String).data =
      pySigned (("1200.50" : String).data.filter (· ≠ '.')) :=
  C10_parser_formatter.2.2.1 _ (by decide)

end ApiIPCA
